import Mathlib

/-!
Shallow embedding of the claudiator server core (Rust) and proofs about it.

Modelled files:
* `src/server/src/error.rs` — the client-facing error type and its HTTP mapping.
* `src/server/src/auth.rs` — bearer auth, IP failure lockout, per-key rate limit.
* `src/server/src/notif_dedup.rs` — per-(session, type) notification cooldown.
* `src/server/src/handlers/events.rs` — event ingestion, title derivation,
  notification decision, push batch, cleanup scheduling.
* `src/server/src/db/queries.rs` — upserts and retention deletes.
* `src/server/src/apns.rs` — provider status code taxonomy.

Machine integers: Rust `u32` counters are modelled as `Nat` with explicit
saturation at `2 ^ 32 - 1` (the code uses `saturating_add`).  Time instants
are modelled as `Nat` seconds; `Instant::duration_since` saturates at zero,
matching truncated `Nat` subtraction.  `HashMap` state is modelled as an
association list with unique keys (`alookup` / `aupdate`).
-/

namespace Claudiator

/-- Association-list lookup, modelling `HashMap::get`. -/
def alookup {κ α : Type} [DecidableEq κ] : List (κ × α) → κ → Option α
  | [], _ => none
  | kv :: rest, k => if kv.1 = k then some kv.2 else alookup rest k

/-- Association-list insert-or-replace, modelling `HashMap::insert` /
the `entry` API writing a value for a key. -/
def aupdate {κ α : Type} [DecidableEq κ] : List (κ × α) → κ → α → List (κ × α)
  | [], k, v => [(k, v)]
  | kv :: rest, k, v => if kv.1 = k then (k, v) :: rest else kv :: aupdate rest k v

/-- Decidable equality for `Except` results, so that concrete runs of the
models can be checked by `decide`. -/
instance exceptDecEq {ε α : Type} [DecidableEq ε] [DecidableEq α] :
    DecidableEq (Except ε α)
  | .ok a, .ok b =>
    if h : a = b then .isTrue (congrArg Except.ok h)
    else .isFalse (fun hh => h (Except.ok.inj hh))
  | .ok _, .error _ => .isFalse (fun hh => Except.noConfusion hh)
  | .error _, .ok _ => .isFalse (fun hh => Except.noConfusion hh)
  | .error e, .error f =>
    if h : e = f then .isTrue (congrArg Except.error h)
    else .isFalse (fun hh => h (Except.error.inj hh))

/-- `u32::MAX`, the saturation bound of the Rust counters. -/
def U32_MAX : Nat := 2 ^ 32 - 1

/-- `c.saturating_add(1)` on a `u32` counter. -/
def satSucc (c : Nat) : Nat := min (c + 1) U32_MAX

-- ── error.rs ─────────────────────────────────────────────────────────────────

/-- The error enum of `src/server/src/error.rs` (lines 5-10), exactly as
declared there: three variants.  (`auth.rs` additionally constructs
`AppError::Forbidden` and `AppError::RateLimited`, which this enum does not
define; see `AuthError` below.) -/
inductive AppError
  | Unauthorized
  | BadRequest (msg : String)
  | Internal (msg : String)
deriving DecidableEq

/-- The HTTP status code chosen by `AppError::into_response`
(`error.rs` lines 12-29). -/
def AppError.statusCode : AppError → Nat
  | .Unauthorized => 401
  | .BadRequest _ => 422
  | .Internal _ => 500

/-- The machine-readable `error` key of the JSON body produced by
`AppError::into_response`. -/
def AppError.errorKey : AppError → String
  | .Unauthorized => "unauthorized"
  | .BadRequest _ => "bad_request"
  | .Internal _ => "internal_error"

/-- The human `message` field of the JSON body produced by
`AppError::into_response`.  Internal detail is replaced by a generic text. -/
def AppError.messageText : AppError → String
  | .Unauthorized => "Invalid or missing API key"
  | .BadRequest msg => msg
  | .Internal _ => "Internal server error"

-- ── auth.rs ──────────────────────────────────────────────────────────────────

/-- The five-variant error shape that `src/server/src/auth.rs` assumes when it
constructs `AppError::Forbidden` (line 198) and `AppError::RateLimited`
(lines 73, 120): modelled as a separate type because the `AppError` declared
in `error.rs` lacks those two variants. -/
inductive AuthError
  | Unauthorized
  | Forbidden
  | RateLimited
  | BadRequest (msg : String)
  | Internal (msg : String)
deriving DecidableEq

/-- `MAX_FAILURES` (`auth.rs` line 16). -/
def MAX_FAILURES : Nat := 10

/-- `FAILURE_WINDOW` in seconds (`auth.rs` line 20). -/
def FAILURE_WINDOW : Nat := 5 * 60

/-- `DEFAULT_KEY_RATE_LIMIT` (`auth.rs` line 23). -/
def DEFAULT_KEY_RATE_LIMIT : Nat := 1000

/-- `KEY_RATE_WINDOW` in seconds (`auth.rs` line 26). -/
def KEY_RATE_WINDOW : Nat := 60

/-- Per-IP failure state: key is the client IP (abstracted as a `String`),
value is `(failure_count, window_start)`. -/
abbrev AuthFailureMap := List (String × (Nat × Nat))

/-- Per-key rate state: key is the API key id, value is
`(request_count, window_start)`. -/
abbrev KeyRateLimitMap := List (String × (Nat × Nat))

/-- `check_rate_limit` (`auth.rs` lines 59-77): evict entries whose window
expired, then report `RateLimited` when the failure count of the IP reached
`MAX_FAILURES`.  Returns the result together with the (evicted) map. -/
def checkRateLimit (map : AuthFailureMap) (now : Nat) (ip : String) :
    Except AuthError Unit × AuthFailureMap :=
  let retained := map.filter (fun kv => now - kv.2.2 < FAILURE_WINDOW)
  let isLimited := (alookup retained ip).any (fun e => MAX_FAILURES ≤ e.1)
  if isLimited then (.error .RateLimited, retained) else (.ok (), retained)

/-- `record_auth_failure` (`auth.rs` lines 81-94): insert-or-get the entry of the IP, reset it when its window expired, then saturating-increment the count. -/
def recordAuthFailure (map : AuthFailureMap) (now : Nat) (ip : String) :
    AuthFailureMap :=
  let entry := (alookup map ip).getD (0, now)
  let entry := if FAILURE_WINDOW ≤ now - entry.2 then (0, now) else entry
  aupdate map ip (satSucc entry.1, entry.2)

/-- `check_key_rate_limit` (`auth.rs` lines 99-124): evict expired entries,
insert-or-get the entry of the key, reset it when its own window expired,
saturating-increment the count, and fail with `RateLimited` when the count
exceeds `limit`.  The incremented entry is kept in the map even on failure. -/
def checkKeyRateLimit (map : KeyRateLimitMap) (now : Nat) (keyId : String)
    (limit : Nat) : Except AuthError Unit × KeyRateLimitMap :=
  let retained := map.filter (fun kv => now - kv.2.2 < KEY_RATE_WINDOW)
  let entry := (alookup retained keyId).getD (0, now)
  let entry := if KEY_RATE_WINDOW ≤ now - entry.2 then (0, now) else entry
  let cnt := satSucc entry.1
  let newMap := aupdate retained keyId (cnt, entry.2)
  if limit < cnt then (.error .RateLimited, newMap) else (.ok (), newMap)

/-- A sequence of authenticated requests with the same API key: the per-call
results of `check_key_rate_limit` at the given instants, threading the map. -/
def runKeyCalls (key : String) (limit : Nat) :
    List Nat → KeyRateLimitMap → List (Except AuthError Unit) × KeyRateLimitMap
  | [], m => ([], m)
  | t :: ts, m =>
    let step := checkKeyRateLimit m t key limit
    let rest := runKeyCalls key limit ts step.2
    (step.1 :: rest.1, rest.2)

/-- `Scope` (`auth.rs` lines 128-132). -/
inductive Scope
  | Read
  | Write
deriving DecidableEq

/-- `str::trim`: drop whitespace from both ends (text modelled as a character
list). -/
def trimChars (s : List Char) : List Char :=
  ((s.dropWhile Char.isWhitespace).reverse.dropWhile Char.isWhitespace).reverse

/-- The Rust split at the comma character: split a character list at every
comma. -/
def splitOnComma : List Char → List (List Char)
  | [] => [[]]
  | c :: cs =>
    if c = ',' then [] :: splitOnComma cs
    else
      match splitOnComma cs with
      | [] => [[c]]
      | piece :: rest => (c :: piece) :: rest

/-- `Scope::from_str` (`auth.rs` lines 135-141): trims the piece and accepts
only the literals `read` and `write`. -/
def Scope.fromStr (s : List Char) : Option Scope :=
  if trimChars s = "read".toList then some .Read
  else if trimChars s = "write".toList then some .Write
  else none

/-- `parse_scopes` (`auth.rs` lines 144-146): split a comma-separated scope
string, keeping the recognised pieces. -/
def parseScopes (s : List Char) : List Scope :=
  (splitOnComma s).filterMap Scope.fromStr

-- ── The wired route auth preludes (handlers) ───────────────────────────────

/-- Modelled from the spec: `check_auth`, the credential check invoked by
every routed handler (`events.rs` line 21, `devices.rs` line 19, `ping.rs`
line 17, and the sessions, notifications and push handlers), is defined
nowhere in the server crate, and the `state.api_key` it receives is not a
field of `AppState` — only its callers exist under `src/`.  Following the
bearer rule of the spec for the single configured credential: a bearer token
equal to the configured key is accepted; a missing or different token is
Unauthorized.  (The scope-checking `resolve_auth` and the
`ReadAuth`/`WriteAuth` extractors in `auth.rs` are referenced by no route;
`resolve_auth` also reads a `rate_limit` field that the `ApiKeyRow` of
`queries.rs` lines 527-534 does not declare.) -/
def checkAuth (apiKey : String) (token : Option String) :
    Except AuthError Unit :=
  match token with
  | some tok => if tok = apiKey then .ok () else .error .Unauthorized
  | none => .error .Unauthorized

/-- The auth prelude of the routed read handlers, e.g. `list_devices_handler`
(`devices.rs` lines 17-22; the same shape opens the sessions, ping,
notifications and push handlers): consult the IP failure map first, then
`check_auth` against the single configured key, recording an auth failure
for the IP when the credential is rejected. -/
def listDevicesAuth (failures : AuthFailureMap) (now : Nat) (ip : String)
    (apiKey : String) (token : Option String) :
    Except AuthError Unit × AuthFailureMap :=
  match checkRateLimit failures now ip with
  | (.error e, m) => (.error e, m)
  | (.ok _, m) =>
    match checkAuth apiKey token with
    | .error e => (.error e, recordAuthFailure m now ip)
    | .ok _ => (.ok (), m)

/-- The auth prelude of `events_handler` (`events.rs` lines 16-21): only
`check_auth` — no IP extraction, no `check_rate_limit` and no
`record_auth_failure` appear anywhere in the handler. -/
def eventsAuth (apiKey : String) (token : Option String) :
    Except AuthError Unit :=
  checkAuth apiKey token

-- ── notif_dedup.rs ───────────────────────────────────────────────────────────

/-- `NOTIF_COOLDOWN_WINDOW` in seconds (`notif_dedup.rs` line 6). -/
def NOTIF_COOLDOWN_WINDOW : Nat := 30

/-- `HIGH_PRIORITY_TYPES` (`notif_dedup.rs` line 9). -/
def HIGH_PRIORITY_TYPES : List String := ["permission_prompt"]

/-- The cooldown map: key is `(session_id, notification_type)`, value is the
instant of the last notification sent. -/
abbrev NotifCooldownMap := List ((String × String) × Nat)

/-- `should_send_notification` (`notif_dedup.rs` lines 24-52).  High-priority
types return `true` without touching the map.  Otherwise expired entries are
evicted, a still-cooling entry for the pair suppresses (returning `false`
without updating the entry), and on a `true` return the entry of the pair is set
to `now`. -/
def shouldSendNotification (map : NotifCooldownMap) (now : Nat)
    (sessionId notifType : String) : Bool × NotifCooldownMap :=
  if HIGH_PRIORITY_TYPES.contains notifType then (true, map)
  else if (alookup (map.filter (fun kv => now - kv.2 < NOTIF_COOLDOWN_WINDOW))
        (sessionId, notifType)).any
      (fun last => now - last < NOTIF_COOLDOWN_WINDOW) then
    (false, map.filter (fun kv => now - kv.2 < NOTIF_COOLDOWN_WINDOW))
  else
    (true, aupdate (map.filter (fun kv => now - kv.2 < NOTIF_COOLDOWN_WINDOW))
      (sessionId, notifType) now)

-- ── events.rs: title derivation, status, notification decision ──────────────

/-- Total UTF-8 byte length of a text, modelling the Rust `str::len` on the
character list of the string. -/
def utf8Len (s : List Char) : Nat := (s.map Char.utf8Size).sum

/-- The longest character-prefix whose UTF-8 byte length is at most `maxLen`.
This is the prefix selected by the Rust loop
`while boundary > 0 && !p.is_char_boundary(boundary) { boundary -= 1 }`
started at `boundary = maxLen`: the byte boundaries of a UTF-8 string are
exactly the cumulative byte sums of its character prefixes, so stepping down
from `maxLen` to the nearest boundary keeps precisely the characters that fit
in `maxLen` bytes. -/
def takeBytes : Nat → List Char → List Char
  | _, [] => []
  | maxLen, c :: cs =>
    if c.utf8Size ≤ maxLen then c :: takeBytes (maxLen - c.utf8Size) cs else []

/-- `truncate_at_char_boundary` (`utils.rs` lines 2-12), also inlined at
`events.rs` lines 44-56 with `max_len = 200`: a text of at most `maxLen`
bytes is returned unchanged; a longer one is cut at the nearest character
boundary at or before `maxLen` bytes and the ellipsis character is appended. -/
def truncateAtCharBoundary (s : List Char) (maxLen : Nat) : List Char :=
  if utf8Len s ≤ maxLen then s else takeBytes maxLen s ++ ['…']

/-- Title extraction from the ingested event (`events.rs` lines 44-59): only a
`UserPromptSubmit` event with a prompt yields a title, namely the prompt
truncated at 200 bytes. -/
def deriveTitle (hookEventName : String) (prompt : Option (List Char)) :
    Option (List Char) :=
  if hookEventName = "UserPromptSubmit" then
    prompt.map (fun p => truncateAtCharBoundary p 200)
  else none

/-- `derive_session_status` (`events.rs` lines 336-351). -/
def deriveSessionStatus (hookEventName : String)
    (notificationType : Option String) : Option String :=
  match hookEventName with
  | "SessionStart" => some "active"
  | "UserPromptSubmit" => some "active"
  | "SubagentStart" => some "active"
  | "SubagentStop" => some "active"
  | "Stop" => some "waiting_for_input"
  | "SessionEnd" => some "ended"
  | "PermissionRequest" => some "waiting_for_permission"
  | "Notification" =>
    match notificationType with
    | some "permission_prompt" => some "waiting_for_permission"
    | some "idle_prompt" => some "idle"
    | _ => none
  | _ => none

/-- The `title_from_session` closure of `should_notify` (`events.rs` lines
360-364): the stored session title when present and non-empty, else the
fallback. -/
def titleFromSession (sessionTitle : Option String) (fallback : String) : String :=
  match sessionTitle with
  | some t => if t.isEmpty then fallback else t
  | none => fallback

/-- The permission-request body (`events.rs` lines 375-380 and 392-397): a
four-way combination of tool name and message. -/
def permissionBody (toolName message : Option String) : String :=
  match toolName, message with
  | some tool, some msg => "Permission required: " ++ tool ++ " — " ++ msg
  | some tool, none => "Permission required: " ++ tool
  | none, some msg => "Permission required: " ++ msg
  | none, none => "A session needs permission to continue"

/-- `should_notify` (`events.rs` lines 353-402): maps the event to an optional
`(title, body, notification_type)` triple. -/
def shouldNotify (hookEventName : String)
    (notificationType message sessionTitle toolName : Option String) :
    Option (String × String × String) :=
  match hookEventName with
  | "Stop" =>
    some (titleFromSession sessionTitle "Session Stopped",
      "Session stopped: " ++ message.getD "No reason given", "stop")
  | "Notification" =>
    match notificationType with
    | some "permission_prompt" =>
      some (titleFromSession sessionTitle "Permission Required",
        permissionBody toolName message, "permission_prompt")
    | some "idle_prompt" =>
      some (titleFromSession sessionTitle "Session Idle",
        "Session idle: " ++ message.getD "Waiting for input", "idle_prompt")
    | _ => none
  | "PermissionRequest" =>
    some (titleFromSession sessionTitle "Permission Required",
      permissionBody toolName message, "permission_prompt")
  | _ => none

-- ── queries.rs: upsert_session ───────────────────────────────────────────────

/-- A row of the `sessions` table.  Timestamps are abstracted to `Nat`
(the SQL compares RFC 3339 strings, a linear order). -/
structure SessionRow where
  sessionId : String
  deviceId : String
  startedAt : Nat
  lastEvent : Nat
  status : String
  cwd : Option String
  title : Option (List Char)
deriving DecidableEq

/-- `upsert_session` (`queries.rs` lines 30-63) acting on the current row of the
session (`none` when the id is new).  Fresh insert stores
`status.unwrap_or("active")`, the incoming cwd and title.  On conflict,
`last_event` always advances, `cwd = COALESCE(excluded.cwd, sessions.cwd)`
and `title = COALESCE(sessions.title, excluded.title)`.  When a status was
derived, a second statement overwrites the status. -/
def upsertSession (existing : Option SessionRow) (sessionId deviceId : String)
    (now : Nat) (status : Option String) (cwd : Option String)
    (title : Option (List Char)) : SessionRow :=
  let row : SessionRow :=
    match existing with
    | none =>
      { sessionId := sessionId, deviceId := deviceId, startedAt := now,
        lastEvent := now, status := status.getD "active", cwd := cwd,
        title := title }
    | some s =>
      { s with
        lastEvent := now,
        cwd := match cwd with | some c => some c | none => s.cwd,
        title := match s.title with | some t => some t | none => title }
  match status with
  | some st => { row with status := st }
  | none => row

-- ── events.rs: the ingestion transaction (lines 77-132) ─────────────────────

/-- A statement attempted by the ingestion write unit. -/
inductive TxnStep
  | txBegin
  | txUpsertDevice
  | txUpsertSession
  | txInsertEvent
  | txSetMetadata
  | txCommit
  | txRollback
deriving DecidableEq

/-- Outcome oracle for the fallible steps of the ingestion write unit. -/
structure StepOracle where
  beginOk : Bool
  upsertDeviceOk : Bool
  upsertSessionOk : Bool
  insertEventOk : Bool
  setMetadataOk : Bool
  commitOk : Bool
deriving DecidableEq

/-- The transactional section of `events_handler` (`events.rs` lines 77-132),
as the trace of statements it attempts and the result it returns.  The
closure failures (device, session, event) hit the `Err` arm of the `match`
and issue `ROLLBACK`.  In the `Ok` arm, `set_metadata` is called with `?`
before `COMMIT`: its failure returns the error directly, issuing neither
`COMMIT` nor `ROLLBACK`; a `COMMIT` failure likewise returns through
`map_err(..)?` without a rollback statement. -/
def runIngestTxn (o : StepOracle) : Except AppError Unit × List TxnStep :=
  if ¬ o.beginOk then (.error (.Internal "Transaction begin failed"), [.txBegin])
  else if ¬ o.upsertDeviceOk then
    (.error (.Internal "Failed to upsert device"),
      [.txBegin, .txUpsertDevice, .txRollback])
  else if ¬ o.upsertSessionOk then
    (.error (.Internal "Failed to upsert session"),
      [.txBegin, .txUpsertDevice, .txUpsertSession, .txRollback])
  else if ¬ o.insertEventOk then
    (.error (.Internal "Failed to insert event"),
      [.txBegin, .txUpsertDevice, .txUpsertSession, .txInsertEvent, .txRollback])
  else if ¬ o.setMetadataOk then
    (.error (.Internal "Failed to set metadata"),
      [.txBegin, .txUpsertDevice, .txUpsertSession, .txInsertEvent, .txSetMetadata])
  else if ¬ o.commitOk then
    (.error (.Internal "Transaction commit failed"),
      [.txBegin, .txUpsertDevice, .txUpsertSession, .txInsertEvent, .txSetMetadata,
        .txCommit])
  else
    (.ok (),
      [.txBegin, .txUpsertDevice, .txUpsertSession, .txInsertEvent, .txSetMetadata,
        .txCommit])

-- ── events.rs: the post-commit notification phase (lines 134-170) ───────────

/-- The fields of one ingested event that the notification phase reads. -/
structure IngestEvent where
  sessionId : String
  hookEventName : String
  notificationType : Option String
  message : Option String
  toolName : Option String
deriving DecidableEq

/-- Number of notification rows created by the post-commit notification phase
of `events_handler` (`events.rs` lines 139-170) over a sequence of ingested
events: `insert_notification` is called exactly when `should_notify` returns
`Some`.  The handler contains no call to `should_send_notification`
(and `notif_dedup` is not declared as a module in `lib.rs`), so no cooldown
filter is applied before the insert. -/
def notifRowsCreated (events : List IngestEvent)
    (sessionTitle : String → Option String) : Nat :=
  (events.filter (fun e =>
    (shouldNotify e.hookEventName e.notificationType e.message
      (sessionTitle e.sessionId) e.toolName).isSome)).length

-- ── queries.rs: retention deletes, and the cleanup order of events.rs ───────

/-- A row of the `events` table (the fields the cleanup reads). -/
structure EventRow where
  deviceId : String
  sessionId : String
  receivedAt : Nat
deriving DecidableEq

/-- A row of the `notifications` table (the fields the cleanup reads). -/
structure NotifRow where
  sessionId : String
  deviceId : String
  createdAt : Nat
deriving DecidableEq

/-- A row of the `devices` table (the fields the cleanup reads). -/
structure DeviceRow where
  deviceId : String
  lastSeen : Nat
deriving DecidableEq

/-- The relational store as the cleanup sees it. -/
structure Db where
  events : List EventRow
  notifications : List NotifRow
  sessions : List SessionRow
  devices : List DeviceRow

/-- `delete_old_events` (`queries.rs` lines 384-399):
`DELETE FROM events WHERE received_at < cutoff`. -/
def deleteOldEvents (db : Db) (cutoff : Nat) : Db :=
  { db with events := db.events.filter (fun e => ¬ e.receivedAt < cutoff) }

/-- `delete_expired_notifications` (`queries.rs` lines 368-382):
`DELETE FROM notifications WHERE created_at < cutoff` (cutoff = now − 24h). -/
def deleteExpiredNotifications (db : Db) (cutoff : Nat) : Db :=
  { db with
    notifications := db.notifications.filter (fun n => ¬ n.createdAt < cutoff) }

/-- `delete_stale_sessions` (`queries.rs` lines 401-418): delete sessions with
`last_event < cutoff` that are referenced by no event and no notification. -/
def deleteStaleSessions (db : Db) (cutoff : Nat) : Db :=
  { db with
    sessions := db.sessions.filter (fun s =>
      ¬ (s.lastEvent < cutoff
        ∧ db.events.all (fun e => ¬ e.sessionId = s.sessionId)
        ∧ db.notifications.all (fun n => ¬ n.sessionId = s.sessionId))) }

/-- `delete_stale_devices` (`queries.rs` lines 420-437): delete devices with
`last_seen < cutoff` that are referenced by no session and no event. -/
def deleteStaleDevices (db : Db) (cutoff : Nat) : Db :=
  { db with
    devices := db.devices.filter (fun d =>
      ¬ (d.lastSeen < cutoff
        ∧ db.sessions.all (fun s => ¬ s.deviceId = d.deviceId)
        ∧ db.events.all (fun e => ¬ e.deviceId = d.deviceId))) }

/-- The cleanup task spawned by `events_handler` (`events.rs` lines 274-324),
in its order: old events, then expired notifications, then stale sessions,
then stale devices.  Each step receives its own cutoff (derived in the code
from the per-entity retention windows). -/
def runCleanup (db : Db) (evCutoff notifCutoff sessCutoff devCutoff : Nat) : Db :=
  deleteStaleDevices
    (deleteStaleSessions
      (deleteExpiredNotifications (deleteOldEvents db evCutoff) notifCutoff)
      sessCutoff)
    devCutoff

-- ── apns.rs and the push batch of events.rs ─────────────────────────────────

/-- `ApnsPushResult` (`apns.rs`). -/
inductive ApnsPushResult
  | Success
  | Gone
  | AuthFailure
  | Retry
  | OtherError (msg : String)
deriving DecidableEq

/-- `status_to_push_result` (`apns.rs` lines 167-175): 200 success, 410 gone,
403 credential error, 429 or 503 provider rate limit, anything else an
other-error.  (The source names the credential case `AuthError`; it is named
`AuthFailure` here to avoid clashing with the auth-layer error type.) -/
def statusToPushResult (status : Nat) (body : String) : ApnsPushResult :=
  if status = 200 then .Success
  else if status = 410 then .Gone
  else if status = 403 then .AuthFailure
  else if status = 429 ∨ status = 503 then .Retry
  else .OtherError ("HTTP " ++ toString status ++ ": " ++ body)

/-- A row of the `push_tokens` table as the batch reads it. -/
structure PushTokenRow where
  pushToken : String
  sandbox : Bool
deriving DecidableEq

/-- What the push batch did: which tokens were attempted, in order, and which
were deleted from the store. -/
structure BatchTrace where
  attempted : List String
  deleted : List String
deriving DecidableEq

/-- The push-delivery loop of `events_handler` (`events.rs` lines 210-252)
over the registered tokens, with the provider HTTP status for each token
given by `statusOf`: on `Gone` the token is deleted and the loop continues;
on `Retry` the loop breaks, skipping all remaining tokens; on `Success`,
`AuthFailure` or `OtherError` the loop logs and continues. -/
def runPushBatch (tokens : List PushTokenRow) (statusOf : String → Nat) :
    BatchTrace :=
  match tokens with
  | [] => { attempted := [], deleted := [] }
  | t :: rest =>
    match statusToPushResult (statusOf t.pushToken) "" with
    | .Retry => { attempted := [t.pushToken], deleted := [] }
    | .Gone =>
      let tr := runPushBatch rest statusOf
      { attempted := t.pushToken :: tr.attempted,
        deleted := t.pushToken :: tr.deleted }
    | _ =>
      let tr := runPushBatch rest statusOf
      { attempted := t.pushToken :: tr.attempted, deleted := tr.deleted }

-- ── Shared lemmas about association lists ───────────────────────────────────

theorem alookup_eq_none_of_not_mem {κ α : Type} [DecidableEq κ]
    (m : List (κ × α)) (k : κ) (h : k ∉ m.map Prod.fst) :
    alookup m k = none := by
  induction m with
  | nil => rfl
  | cons kv rest ih =>
    simp only [List.map_cons, List.mem_cons, not_or] at h
    simp only [alookup, if_neg (Ne.symm h.1)]
    exact ih h.2

theorem alookup_filter_eq_none {κ α : Type} [DecidableEq κ]
    (m : List (κ × α)) (p : κ × α → Bool) (k : κ)
    (h : alookup m k = none) : alookup (m.filter p) k = none := by
  induction m with
  | nil => rfl
  | cons kv rest ih =>
    simp only [alookup] at h
    by_cases hk : kv.1 = k
    · simp [hk] at h
    · simp only [if_neg hk] at h
      rw [List.filter_cons]
      by_cases hpk : p kv = true
      · simp only [hpk, if_true, alookup, if_neg hk]
        exact ih h
      · simp only [hpk]
        simp only [Bool.false_eq_true, if_false]
        exact ih h

theorem alookup_filter_of_nodup {κ α : Type} [DecidableEq κ]
    (m : List (κ × α)) (p : κ × α → Bool) (k : κ) (v : α)
    (hnd : (m.map Prod.fst).Nodup)
    (h : alookup (m.filter p) k = some v) : alookup m k = some v := by
  induction m with
  | nil => simp [alookup] at h
  | cons kv rest ih =>
    simp only [List.map_cons, List.nodup_cons] at hnd
    rw [List.filter_cons] at h
    by_cases hpk : p kv = true
    · simp only [hpk, if_true, alookup] at h
      by_cases hk : kv.1 = k
      · simp only [hk, if_true] at h
        simp [alookup, hk, h]
      · simp only [if_neg hk] at h
        simp only [alookup, if_neg hk]
        exact ih hnd.2 h
    · simp only [hpk, Bool.false_eq_true, if_false] at h
      by_cases hk : kv.1 = k
      · exfalso
        have hnone : alookup rest k = none := by
          apply alookup_eq_none_of_not_mem
          rw [← hk]
          exact hnd.1
        rw [alookup_filter_eq_none rest p k hnone] at h
        exact Option.noConfusion h
      · simp only [alookup, if_neg hk]
        exact ih hnd.2 h

theorem alookup_filter_eq_some {κ α : Type} [DecidableEq κ]
    (m : List (κ × α)) (p : κ × α → Bool) (k : κ) (v : α)
    (h : alookup m k = some v) (hp : p (k, v) = true) :
    alookup (m.filter p) k = some v := by
  induction m with
  | nil => simp [alookup] at h
  | cons kv rest ih =>
    rw [List.filter_cons]
    by_cases hk : kv.1 = k
    · simp only [alookup, if_pos hk] at h
      have hkv : kv = (k, v) := by
        obtain ⟨k1, v1⟩ := kv
        simp_all
      rw [hkv, hp]
      simp [alookup]
    · simp only [alookup, if_neg hk] at h
      by_cases hpk : p kv = true
      · simp only [hpk, if_true, alookup, if_neg hk]
        exact ih h
      · simp only [hpk, Bool.false_eq_true, if_false]
        exact ih h

theorem alookup_aupdate_self {κ α : Type} [DecidableEq κ]
    (m : List (κ × α)) (k : κ) (v : α) :
    alookup (aupdate m k v) k = some v := by
  induction m with
  | nil => simp [aupdate, alookup]
  | cons kv rest ih =>
    rw [aupdate]
    by_cases hk : kv.1 = k
    · simp [hk, alookup]
    · simp only [if_neg hk, alookup, if_neg hk]
      exact ih

theorem alookup_filter_drop_of_nodup {κ α : Type} [DecidableEq κ]
    (m : List (κ × α)) (p : κ × α → Bool) (k : κ) (v : α)
    (hnd : (m.map Prod.fst).Nodup)
    (h : alookup m k = some v) (hp : p (k, v) = false) :
    alookup (m.filter p) k = none := by
  induction m with
  | nil => simp [alookup] at h
  | cons kv rest ih =>
    simp only [List.map_cons, List.nodup_cons] at hnd
    rw [List.filter_cons]
    by_cases hk : kv.1 = k
    · simp only [alookup, if_pos hk] at h
      have hkv : kv = (k, v) := by
        obtain ⟨k1, v1⟩ := kv
        simp_all
      rw [hkv, hp]
      simp only [Bool.false_eq_true, if_false]
      apply alookup_filter_eq_none
      apply alookup_eq_none_of_not_mem
      rw [hkv] at hnd
      exact hnd.1
    · simp only [alookup, if_neg hk] at h
      by_cases hpk : p kv = true
      · simp only [hpk, if_true, alookup, if_neg hk]
        exact ih hnd.2 h
      · simp only [hpk, Bool.false_eq_true, if_false]
        exact ih hnd.2 h

-- ── C1 ──────────────────────────────────────────────────────────────────────

/-- C1: the claim states that a second notification-eligible event of the same
non-`permission_prompt` category for the same session within 30 seconds is
suppressed entirely.  The ingestion pipeline of `events_handler` creates a
notification row for every event on which `should_notify` returns `Some`:
two `Stop` events for session `s1` ingested 5 seconds apart create two rows,
although the (never-invoked) `should_send_notification` would have fired on
the first call and suppressed the second. -/
theorem ingestPipelineLacksDedup :
    notifRowsCreated
      [⟨"s1", "Stop", none, none, none⟩, ⟨"s1", "Stop", none, none, none⟩]
      (fun _ => none) = 2
    ∧ (shouldSendNotification [] 0 "s1" "stop").1 = true
    ∧ (shouldSendNotification (shouldSendNotification [] 0 "s1" "stop").2
        5 "s1" "stop").1 = false := by
  decide

-- ── C2 ──────────────────────────────────────────────────────────────────────

/-- C2: the claim states that a failure of any step of the write unit — the
data-version metadata write included — rolls the transaction back entirely.
When `set_metadata` fails after device, session and event succeeded, the
handler returns Internal with the transaction left open: the attempted
statement trace contains neither `ROLLBACK` nor `COMMIT`.  (For a failure of
the device upsert, by contrast, `ROLLBACK` is issued.) -/
theorem metadataFailureLeavesTxnOpen :
    (runIngestTxn ⟨true, true, true, true, false, true⟩).1
      = .error (.Internal "Failed to set metadata")
    ∧ TxnStep.txRollback ∉ (runIngestTxn ⟨true, true, true, true, false, true⟩).2
    ∧ TxnStep.txCommit ∉ (runIngestTxn ⟨true, true, true, true, false, true⟩).2
    ∧ TxnStep.txInsertEvent ∈ (runIngestTxn ⟨true, true, true, true, false, true⟩).2
    ∧ (runIngestTxn ⟨true, false, true, true, true, true⟩).2
        = [.txBegin, .txUpsertDevice, .txRollback]
    ∧ (runIngestTxn ⟨true, true, true, true, true, false⟩).2
        = [.txBegin, .txUpsertDevice, .txUpsertSession, .txInsertEvent,
            .txSetMetadata, .txCommit] := by
  decide

-- ── C3 ──────────────────────────────────────────────────────────────────────

/-- C3: the claim states a five-kind taxonomy with statuses 401, 403, 429,
422, 500.  The `AppError` declared in `error.rs` has exactly three variants;
every response status it produces is 401, 422 or 500, and no value of the
type maps to 403 or 429 — `Forbidden` and `RateLimited` are not producible
response kinds of this enum (although `auth.rs` constructs them). -/
theorem errorTaxonomyHasThreeKinds :
    (∀ e : AppError, e.statusCode = 401 ∨ e.statusCode = 422 ∨ e.statusCode = 500)
    ∧ (∀ e : AppError, ¬ e.statusCode = 403 ∧ ¬ e.statusCode = 429)
    ∧ AppError.Unauthorized.statusCode = 401
    ∧ (∀ m, (AppError.BadRequest m).statusCode = 422)
    ∧ (∀ m, (AppError.Internal m).statusCode = 500)
    ∧ AppError.Unauthorized.errorKey = "unauthorized"
    ∧ (∀ m, (AppError.BadRequest m).errorKey = "bad_request")
    ∧ (∀ m, (AppError.Internal m).errorKey = "internal_error") := by
  refine ⟨fun e => ?_, fun e => ?_, rfl, fun m => rfl, fun m => rfl, rfl,
    fun m => rfl, fun m => rfl⟩ <;> cases e <;> simp [AppError.statusCode]

-- ── C10 ─────────────────────────────────────────────────────────────────────

/-- C10: whenever `should_send_notification` returns `false` for a
`(session, type)` pair, the recorded last-sent instant of that pair is unchanged in
the resulting map, and it lies within the 30-second window of `now` — so the
suppression window ends exactly 30 seconds after the last notification
actually sent.  (The map keys are unique, as in the Rust `HashMap`.) -/
theorem suppressedCallPreservesCooldown
    (map : NotifCooldownMap) (now : Nat) (sid ntype : String)
    (hnodup : (map.map Prod.fst).Nodup)
    (hfalse : (shouldSendNotification map now sid ntype).1 = false) :
    alookup (shouldSendNotification map now sid ntype).2 (sid, ntype)
      = alookup map (sid, ntype)
    ∧ ∃ t, alookup map (sid, ntype) = some t ∧ now - t < NOTIF_COOLDOWN_WINDOW := by
  unfold shouldSendNotification at hfalse ⊢
  by_cases hb : HIGH_PRIORITY_TYPES.contains ntype = true
  · rw [if_pos hb] at hfalse
    simp at hfalse
  · rw [if_neg hb] at hfalse ⊢
    cases halk : alookup
        (map.filter (fun kv => now - kv.2 < NOTIF_COOLDOWN_WINDOW)) (sid, ntype) with
    | none => simp [halk, Option.any] at hfalse
    | some t =>
      by_cases hwin : now - t < NOTIF_COOLDOWN_WINDOW
      · have hmap : alookup map (sid, ntype) = some t :=
          alookup_filter_of_nodup map _ (sid, ntype) t hnodup halk
        exact ⟨by simp [halk, Option.any, hwin, hmap], t, hmap, hwin⟩
      · simp [halk, Option.any, hwin] at hfalse

/-- Witness for C10 at a concrete map: an entry recorded at instant 5 is
suppressed at instant 10 and left unchanged. -/
theorem suppressedCallPreservesCooldownWitness :
    alookup (shouldSendNotification [(("s1", "stop"), 5)] 10 "s1" "stop").2
      ("s1", "stop") = alookup [(("s1", "stop"), 5)] ("s1", "stop")
    ∧ ∃ t, alookup [(("s1", "stop"), 5)] ("s1", "stop") = some t
        ∧ 10 - t < NOTIF_COOLDOWN_WINDOW :=
  suppressedCallPreservesCooldown [(("s1", "stop"), 5)] 10 "s1" "stop"
    (by decide) (by decide)

-- ── C4 ──────────────────────────────────────────────────────────────────────

/-- C4: the claim requires per-route scope enforcement with Forbidden (not
Unauthorized) for a stored key lacking the required capability.  The wired
routes enforce no scopes at all: their `check_auth` compares the bearer
against the single configured key, so every outcome is ok-or-Unauthorized
(first conjunct); a stored key distinct from the configured one — whatever
its scopes — is answered Unauthorized on the write-scoped events route and
on the read-scoped devices route (second and third conjuncts); the
configured key itself succeeds (fourth).  The dead scope machinery does
distinguish the capabilities: `parse_scopes` maps the stored scope strings
`read` and `write` to exactly the Read and Write capabilities (last
conjuncts). -/
theorem scopeEnforcementMissingOnRoutes :
    (∀ (apiKey : String) (token : Option String),
      checkAuth apiKey token = .ok ()
        ∨ checkAuth apiKey token = .error .Unauthorized)
    ∧ (∀ (apiKey tok : String), ¬ tok = apiKey →
      eventsAuth apiKey (some tok) = .error .Unauthorized)
    ∧ (∀ (failures : AuthFailureMap) (now : Nat) (ip apiKey tok : String),
      (checkRateLimit failures now ip).1 = .ok () → ¬ tok = apiKey →
      (listDevicesAuth failures now ip apiKey (some tok)).1
        = .error .Unauthorized)
    ∧ (∀ apiKey : String, eventsAuth apiKey (some apiKey) = .ok ())
    ∧ parseScopes "read".toList = [Scope.Read]
    ∧ parseScopes "write".toList = [Scope.Write] := by
  refine ⟨?_, ?_, ?_, ?_, by decide, by decide⟩
  · intro apiKey token
    cases token with
    | none => exact Or.inr rfl
    | some tok =>
      by_cases htok : tok = apiKey
      · exact Or.inl (by simp [checkAuth, htok])
      · exact Or.inr (by simp [checkAuth, htok])
  · intro apiKey tok htok
    simp [eventsAuth, checkAuth, htok]
  · intro failures now ip apiKey tok h htok
    unfold listDevicesAuth
    rcases hcr : checkRateLimit failures now ip with ⟨r, m⟩
    rw [hcr] at h
    simp only at h
    subst h
    simp [checkAuth, htok]
  · intro apiKey
    simp [eventsAuth, checkAuth]

/-- Witness for C4: the stored read-scoped key `rk` (distinct from the
configured key) is Unauthorized on both the events and the devices route;
the configured key succeeds on the events route. -/
theorem scopeEnforcementMissingOnRoutesWitness :
    eventsAuth "master" (some "rk") = .error .Unauthorized
    ∧ (listDevicesAuth [] 0 "1.2.3.4" "master" (some "rk")).1
      = .error .Unauthorized
    ∧ eventsAuth "master" (some "master") = .ok () :=
  ⟨scopeEnforcementMissingOnRoutes.2.1 "master" "rk" (by decide),
    scopeEnforcementMissingOnRoutes.2.2.1 [] 0 "1.2.3.4" "master" "rk"
      (by decide) (by decide),
    scopeEnforcementMissingOnRoutes.2.2.2.1 "master"⟩

-- ── C9 ──────────────────────────────────────────────────────────────────────

/-- C9: the claim requires every further request from a locked-out IP to be
answered RateLimited, with failures incrementing the counter and successes
never resetting it.  The routed read handlers do enforce this: with 10
failures recorded inside the window, the devices route answers RateLimited
for every token, the configured key included (first conjunct); a further
failed attempt there increments the counter keeping its window start, and a
success leaves the entry untouched (last two conjuncts).  But
`events_handler` performs no IP check at all — its auth prelude is only
`check_auth` — so ingestion requests from a locked-out IP are never answered
RateLimited (second conjunct), refuting the universal claim. -/
theorem ipLockoutMissingOnEventsRoute :
    (∀ token : Option String,
      (listDevicesAuth [("1.2.3.4", (10, 0))] 100 "1.2.3.4" "master" token).1
        = .error .RateLimited)
    ∧ (∀ (apiKey : String) (token : Option String),
      ¬ eventsAuth apiKey token = .error .RateLimited)
    ∧ alookup (listDevicesAuth [("1.2.3.4", (9, 0))] 100 "1.2.3.4" "master"
        (some "wrong")).2 "1.2.3.4" = some (10, 0)
    ∧ alookup (listDevicesAuth [("1.2.3.4", (9, 0))] 100 "1.2.3.4" "master"
        (some "master")).2 "1.2.3.4" = some (9, 0) := by
  refine ⟨?_, ?_, by decide, by decide⟩
  · intro token
    have hcr : checkRateLimit [("1.2.3.4", (10, 0))] 100 "1.2.3.4"
        = (.error .RateLimited, [("1.2.3.4", (10, 0))]) := by decide
    unfold listDevicesAuth
    rw [hcr]
  · intro apiKey token h
    cases token with
    | none => simp [eventsAuth, checkAuth] at h
    | some tok =>
      by_cases htok : tok = apiKey <;> simp [eventsAuth, checkAuth, htok] at h

-- ── C6 ──────────────────────────────────────────────────────────────────────

theorem checkKeyRateLimit_step (k : String) (limit c t0 t : Nat)
    (h1 : t - t0 < KEY_RATE_WINDOW) :
    checkKeyRateLimit [(k, (c, t0))] t k limit
      = (if limit < satSucc c then .error .RateLimited else .ok (),
          [(k, (satSucc c, t0))]) := by
  have hnw : ¬ KEY_RATE_WINDOW ≤ t - t0 := Nat.not_le_of_lt h1
  unfold checkKeyRateLimit
  simp [alookup, aupdate, h1, hnw]
  split <;> rfl

theorem checkKeyRateLimit_first (k : String) (limit t0 : Nat) :
    checkKeyRateLimit [] t0 k limit
      = (if limit < 1 then .error .RateLimited else .ok (), [(k, (1, t0))]) := by
  have hs : satSucc 0 = 1 := by
    have hmx : U32_MAX = 4294967295 := by norm_num [U32_MAX]
    unfold satSucc
    omega
  unfold checkKeyRateLimit
  simp [alookup, aupdate, hs]
  split <;> rfl

theorem checkKeyRateLimit_expired (k : String) (limit c t0 t : Nat)
    (h1 : KEY_RATE_WINDOW ≤ t - t0) :
    checkKeyRateLimit [(k, (c, t0))] t k limit
      = (if limit < 1 then .error .RateLimited else .ok (), [(k, (1, t))]) := by
  have hs : satSucc 0 = 1 := by
    have hmx : U32_MAX = 4294967295 := by norm_num [U32_MAX]
    unfold satSucc
    omega
  have hnlt : ¬ t - t0 < KEY_RATE_WINDOW := Nat.not_lt_of_le h1
  unfold checkKeyRateLimit
  simp [alookup, aupdate, hnlt, hs]
  split <;> rfl

theorem runKeyCalls_exhaust (k : String) (limit t0 : Nat) :
    ∀ (ts : List Nat) (c : Nat),
      (∀ t ∈ ts, t - t0 < KEY_RATE_WINDOW) →
      c + ts.length ≤ U32_MAX →
      c + ts.length = limit + 1 →
      c ≤ limit →
      (runKeyCalls k limit ts [(k, (c, t0))]).1
        = List.replicate (limit - c) (.ok ()) ++ [.error .RateLimited] := by
  intro ts
  induction ts with
  | nil =>
    intro c _ _ hlen hc
    exfalso
    simp at hlen
    omega
  | cons t ts ih =>
    intro c hwin hmax hlen hc
    have hmx : U32_MAX = 4294967295 := by norm_num [U32_MAX]
    have hwt : t - t0 < KEY_RATE_WINDOW := hwin t (List.mem_cons_self _ _)
    simp only [List.length_cons] at hmax hlen
    have hsat : satSucc c = c + 1 := by
      unfold satSucc
      omega
    rw [runKeyCalls, checkKeyRateLimit_step k limit c t0 t hwt, hsat]
    rcases List.eq_nil_or_concat ts with hnil | _
    · subst hnil
      have hcl : c = limit := by simp at hlen; omega
      subst hcl
      simp [runKeyCalls]
    · have hlen1 : 1 ≤ ts.length := by
        cases ts with
        | nil => simp_all
        | cons a l => simp
      have hle : c + 1 ≤ limit := by omega
      have hnlt : ¬ limit < c + 1 := by omega
      rw [if_neg hnlt]
      have hrec := ih (c + 1) (fun u hu => hwin u (List.mem_cons_of_mem _ hu))
        (by omega) (by omega) hle
      simp only [hrec]
      have hrepl : limit - c = (limit - (c + 1)) + 1 := by omega
      rw [hrepl, List.replicate_succ]
      simp

theorem runKeyCalls_boundary (k : String) (N t0 : Nat) (ts : List Nat)
    (hN : 1 ≤ N) (hmax : N + 1 ≤ U32_MAX)
    (hwin : ∀ t ∈ ts, t - t0 < KEY_RATE_WINDOW) (hlen : ts.length = N) :
    (runKeyCalls k N (t0 :: ts) []).1
      = List.replicate N (.ok ()) ++ [.error .RateLimited] := by
  have hn1 : ¬ N < 1 := by omega
  rw [runKeyCalls, checkKeyRateLimit_first k N t0, if_neg hn1]
  have hrec := runKeyCalls_exhaust k N t0 ts 1 hwin (by omega) (by omega) hN
  simp only [hrec]
  have hrepl : N = (N - 1) + 1 := by omega
  rw [hrepl, List.replicate_succ]
  simp

/-- C6: per-key rate limiting has no reachable or configurable counterpart in
the wired program.  The routed auth prelude keeps no per-key request count —
with the configured key and a clean IP the route answers ok and leaves the
state empty, at every instant, so any number of consecutive requests succeed
and no counter exists to exceed (first conjunct).  The unit-tested
`check_key_rate_limit` itself — called only from the dead `resolve_auth` —
does behave as the claim describes for its limit argument: at the default
limit of 1000, the first 1000 in-window requests pass and the 1001st is
RateLimited (second conjunct), and an expired window resets wholesale to a
fresh count of 1 (third conjunct). -/
theorem perKeyQuotaUnreachable :
    (∀ (apiKey : String) (now : Nat) (ip : String),
      listDevicesAuth [] now ip apiKey (some apiKey) = (.ok (), []))
    ∧ (runKeyCalls "k" DEFAULT_KEY_RATE_LIMIT
        (0 :: List.replicate DEFAULT_KEY_RATE_LIMIT 0) []).1
      = List.replicate DEFAULT_KEY_RATE_LIMIT (.ok ()) ++ [.error .RateLimited]
    ∧ checkKeyRateLimit [("k", (5, 0))] 60 "k" DEFAULT_KEY_RATE_LIMIT
      = (.ok (), [("k", (1, 60))]) := by
  refine ⟨?_, ?_, ?_⟩
  · intro apiKey now ip
    simp [listDevicesAuth, checkRateLimit, alookup, Option.any, checkAuth]
  · exact runKeyCalls_boundary "k" DEFAULT_KEY_RATE_LIMIT 0
      (List.replicate DEFAULT_KEY_RATE_LIMIT 0)
      (by norm_num [DEFAULT_KEY_RATE_LIMIT])
      (by norm_num [DEFAULT_KEY_RATE_LIMIT, U32_MAX])
      (fun t ht => by rw [List.eq_of_mem_replicate ht]; norm_num [KEY_RATE_WINDOW])
      (by simp)
  · rw [checkKeyRateLimit_expired "k" DEFAULT_KEY_RATE_LIMIT 5 0 60
      (by norm_num [KEY_RATE_WINDOW])]
    rw [if_neg (by norm_num [DEFAULT_KEY_RATE_LIMIT])]

-- ── C5 ──────────────────────────────────────────────────────────────────────

theorem utf8Len_takeBytes_le : ∀ (n : Nat) (s : List Char),
    utf8Len (takeBytes n s) ≤ n := by
  intro n s
  induction s generalizing n with
  | nil => simp [takeBytes, utf8Len]
  | cons c cs ih =>
    rw [takeBytes]
    by_cases h : c.utf8Size ≤ n
    · rw [if_pos h]
      have hrec := ih (n - c.utf8Size)
      simp only [utf8Len, List.map_cons, List.sum_cons] at hrec ⊢
      omega
    · rw [if_neg h]
      simp [utf8Len]

theorem takeBytes_append_rest : ∀ (n : Nat) (s : List Char),
    ∃ rest, takeBytes n s ++ rest = s := by
  intro n s
  induction s generalizing n with
  | nil => exact ⟨[], rfl⟩
  | cons c cs ih =>
    rw [takeBytes]
    by_cases h : c.utf8Size ≤ n
    · rw [if_pos h]
      obtain ⟨rest, hr⟩ := ih (n - c.utf8Size)
      exact ⟨rest, by simp [hr]⟩
    · exact ⟨c :: cs, by rw [if_neg h]; rfl⟩

/-- C5 (amended): title truncation is by UTF-8 byte length, not character
count: a prompt of at most 200 bytes becomes the title unchanged; a longer
prompt yields the longest character-prefix of at most 200 bytes — a prefix of
the prompt, so the cut is at a character boundary — followed by the ellipsis
character.  The title reaches storage via `upsert_session`, which keeps an
existing title and stores the incoming one only when the session has none;
no other event type derives a title. -/
theorem byteTruncationTitleDerivation :
    (∀ p : List Char, utf8Len p ≤ 200 →
      deriveTitle "UserPromptSubmit" (some p) = some p)
    ∧ (∀ p : List Char, 200 < utf8Len p →
      deriveTitle "UserPromptSubmit" (some p) = some (takeBytes 200 p ++ ['…'])
      ∧ utf8Len (takeBytes 200 p) ≤ 200
      ∧ ∃ rest, takeBytes 200 p ++ rest = p)
    ∧ (∀ (s : SessionRow) (sid did : String) (now : Nat)
        (status cwd : Option String) (t0 : List Char)
        (incoming : Option (List Char)),
      s.title = some t0 →
      (upsertSession (some s) sid did now status cwd incoming).title = some t0)
    ∧ (∀ (s : SessionRow) (sid did : String) (now : Nat)
        (status cwd : Option String) (incoming : Option (List Char)),
      s.title = none →
      (upsertSession (some s) sid did now status cwd incoming).title = incoming)
    ∧ (∀ (h : String) (p : Option (List Char)),
      ¬ h = "UserPromptSubmit" → deriveTitle h p = none) := by
  refine ⟨?_, ?_, ?_, ?_, ?_⟩
  · intro p hp
    simp [deriveTitle, truncateAtCharBoundary, hp]
  · intro p hp
    have hnle : ¬ utf8Len p ≤ 200 := by omega
    exact ⟨by simp [deriveTitle, truncateAtCharBoundary, hnle],
      utf8Len_takeBytes_le 200 p, takeBytes_append_rest 200 p⟩
  · intro s sid did now status cwd t0 incoming ht
    unfold upsertSession
    cases status <;> simp [ht]
  · intro s sid did now status cwd incoming ht
    unfold upsertSession
    cases status <;> simp [ht]
  · intro h p hne
    simp [deriveTitle, hne]

set_option maxRecDepth 4000 in
/-- Witness for C5 (amended): a short ASCII prompt is kept unchanged; a
300-byte prompt is truncated at 200 bytes with an ellipsis; an existing
session title survives an upsert with a different incoming title, while a
title-less session adopts the incoming one; a Stop event derives no title. -/
theorem byteTruncationTitleDerivationWitness :
    deriveTitle "UserPromptSubmit" (some "Fix bug".toList) = some "Fix bug".toList
    ∧ deriveTitle "UserPromptSubmit" (some (List.replicate 300 'a'))
        = some (takeBytes 200 (List.replicate 300 'a') ++ ['…'])
    ∧ (upsertSession (some ⟨"s1", "d1", 0, 0, "active", none, some "Old".toList⟩)
        "s1" "d1" 5 none none (some "New".toList)).title = some "Old".toList
    ∧ (upsertSession (some ⟨"s1", "d1", 0, 0, "active", none, none⟩)
        "s1" "d1" 5 none none (some "New".toList)).title = some "New".toList
    ∧ deriveTitle "Stop" (some "x".toList) = none := by
  refine ⟨?_, ?_, ?_, ?_, ?_⟩
  · exact byteTruncationTitleDerivation.1 "Fix bug".toList (by decide)
  · exact (byteTruncationTitleDerivation.2.1 (List.replicate 300 'a')
      (by decide)).1
  · exact byteTruncationTitleDerivation.2.2.1
      ⟨"s1", "d1", 0, 0, "active", none, some "Old".toList⟩
      "s1" "d1" 5 none none "Old".toList (some "New".toList) rfl
  · exact byteTruncationTitleDerivation.2.2.2.1
      ⟨"s1", "d1", 0, 0, "active", none, none⟩
      "s1" "d1" 5 none none (some "New".toList) rfl
  · exact byteTruncationTitleDerivation.2.2.2.2 "Stop" (some "x".toList)
      (by decide)

/-- C5 (counterexample to the claim as stated, which counts characters): a
prompt of 101 euro-sign characters is well under 200 characters, yet the
derived title is not the unchanged prompt — the code truncates whenever the
UTF-8 byte length (here 303) exceeds 200. -/
theorem charCountTruncationFails :
    (List.replicate 101 '€').length ≤ 200
    ∧ deriveTitle "UserPromptSubmit" (some (List.replicate 101 '€'))
        ≠ some (List.replicate 101 '€') := by
  decide

-- ── C7 ──────────────────────────────────────────────────────────────────────

/-- C7: running the four-step cleanup never deletes a session that is still
referenced by a remaining (post-cleanup) event or notification, and never
deletes a device still referenced by a remaining session or event, whatever
the cutoffs — even when the own timestamp of the session or device is past its
retention cutoff. -/
theorem cleanupPreservesReferenced :
    ∀ (db : Db) (evCutoff notifCutoff sessCutoff devCutoff : Nat),
      (∀ s ∈ db.sessions,
        ((∃ e ∈ (runCleanup db evCutoff notifCutoff sessCutoff devCutoff).events,
            e.sessionId = s.sessionId)
          ∨ ∃ nr ∈ (runCleanup db evCutoff notifCutoff sessCutoff
              devCutoff).notifications, nr.sessionId = s.sessionId) →
        s ∈ (runCleanup db evCutoff notifCutoff sessCutoff devCutoff).sessions)
      ∧ (∀ d ∈ db.devices,
        ((∃ s ∈ (runCleanup db evCutoff notifCutoff sessCutoff
              devCutoff).sessions, s.deviceId = d.deviceId)
          ∨ ∃ e ∈ (runCleanup db evCutoff notifCutoff sessCutoff
              devCutoff).events, e.deviceId = d.deviceId) →
        d ∈ (runCleanup db evCutoff notifCutoff sessCutoff devCutoff).devices) := by
  intro db evCutoff notifCutoff sessCutoff devCutoff
  constructor
  · intro s hs href
    simp only [runCleanup, deleteStaleDevices, deleteStaleSessions,
      deleteExpiredNotifications, deleteOldEvents] at href ⊢
    rw [List.mem_filter]
    refine ⟨hs, ?_⟩
    simp only [decide_eq_true_eq, List.all_eq_true, not_and, not_forall]
    intro hstale hev
    rcases href with ⟨e, he, heq⟩ | ⟨nr, hn, heq⟩
    · exact absurd heq (hev e he)
    · exact ⟨nr, hn, not_not_intro heq⟩
  · intro d hd href
    simp only [runCleanup, deleteStaleDevices, deleteStaleSessions,
      deleteExpiredNotifications, deleteOldEvents] at href ⊢
    rw [List.mem_filter]
    refine ⟨hd, ?_⟩
    simp only [decide_eq_true_eq, List.all_eq_true, not_and, not_forall]
    intro hstale hsess
    rcases href with ⟨srow, hsr, heq⟩ | ⟨e, he, heq⟩
    · exact absurd heq (hsess srow hsr)
    · exact ⟨e, he, not_not_intro heq⟩

/-- Witness for C7: a session whose last activity (instant 0) is far before
the cutoff survives cleanup because one remaining event references it, and
the device survives because that session references it. -/
theorem cleanupPreservesReferencedWitness :
    (⟨"s1", "d1", 0, 0, "active", none, none⟩ : SessionRow)
      ∈ (runCleanup
          ⟨[⟨"d1", "s1", 100⟩], [], [⟨"s1", "d1", 0, 0, "active", none, none⟩],
            [⟨"d1", 0⟩]⟩ 50 50 50 50).sessions
    ∧ (⟨"d1", 0⟩ : DeviceRow)
      ∈ (runCleanup
          ⟨[⟨"d1", "s1", 100⟩], [], [⟨"s1", "d1", 0, 0, "active", none, none⟩],
            [⟨"d1", 0⟩]⟩ 50 50 50 50).devices := by
  constructor
  · exact (cleanupPreservesReferenced
      ⟨[⟨"d1", "s1", 100⟩], [], [⟨"s1", "d1", 0, 0, "active", none, none⟩],
        [⟨"d1", 0⟩]⟩ 50 50 50 50).1
      ⟨"s1", "d1", 0, 0, "active", none, none⟩ (by decide)
      (Or.inl ⟨⟨"d1", "s1", 100⟩, by decide, rfl⟩)
  · exact (cleanupPreservesReferenced
      ⟨[⟨"d1", "s1", 100⟩], [], [⟨"s1", "d1", 0, 0, "active", none, none⟩],
        [⟨"d1", 0⟩]⟩ 50 50 50 50).2
      ⟨"d1", 0⟩ (by decide)
      (Or.inr ⟨⟨"d1", "s1", 100⟩, by decide, rfl⟩)

-- ── C8 ──────────────────────────────────────────────────────────────────────

/-- C8: in one push batch over the registered tokens: a token the provider
answers with HTTP 410 is deleted from the store whenever it was attempted; a
401/503-class provider rate limit (429 or 503) stops the batch at that token
— nothing after it is attempted, nothing is deleted by it; any other
non-410, non-rate-limit outcome leaves the store untouched and continues
with the next token; and the status taxonomy is 200 success, 410 gone,
403 credential error, 429/503 retry-later, anything else other-error. -/
theorem pushBatchTaxonomy :
    (∀ (tokens : List PushTokenRow) (statusOf : String → Nat) (tok : String),
      tok ∈ (runPushBatch tokens statusOf).attempted →
      statusOf tok = 410 →
      tok ∈ (runPushBatch tokens statusOf).deleted)
    ∧ (∀ (t : PushTokenRow) (rest : List PushTokenRow)
        (statusOf : String → Nat),
      (statusOf t.pushToken = 429 ∨ statusOf t.pushToken = 503) →
      runPushBatch (t :: rest) statusOf
        = { attempted := [t.pushToken], deleted := [] })
    ∧ (∀ (t : PushTokenRow) (rest : List PushTokenRow)
        (statusOf : String → Nat),
      ¬ statusToPushResult (statusOf t.pushToken) "" = .Retry →
      ¬ statusToPushResult (statusOf t.pushToken) "" = .Gone →
      (runPushBatch (t :: rest) statusOf).attempted
          = t.pushToken :: (runPushBatch rest statusOf).attempted
        ∧ (runPushBatch (t :: rest) statusOf).deleted
          = (runPushBatch rest statusOf).deleted)
    ∧ statusToPushResult 200 "" = .Success
    ∧ statusToPushResult 410 "" = .Gone
    ∧ statusToPushResult 403 "" = .AuthFailure
    ∧ statusToPushResult 429 "" = .Retry
    ∧ statusToPushResult 503 "" = .Retry
    ∧ statusToPushResult 500 "x" = .OtherError "HTTP 500: x" := by
  refine ⟨?_, ?_, ?_, by decide, by decide, by decide, by decide, by decide, ?_⟩
  · intro tokens statusOf
    induction tokens with
    | nil =>
      intro tok h _
      simp [runPushBatch] at h
    | cons t rest ih =>
      intro tok hmem h410
      cases hres : statusToPushResult (statusOf t.pushToken) "" with
      | Retry =>
        simp only [runPushBatch, hres] at hmem
        simp only [List.mem_singleton] at hmem
        subst hmem
        rw [h410] at hres
        simp [statusToPushResult] at hres
      | Gone =>
        simp only [runPushBatch, hres] at hmem ⊢
        rcases List.mem_cons.mp hmem with heq | hrest
        · subst heq
          exact List.mem_cons_self _ _
        · exact List.mem_cons_of_mem _ (ih tok hrest h410)
      | Success =>
        simp only [runPushBatch, hres] at hmem ⊢
        rcases List.mem_cons.mp hmem with heq | hrest
        · subst heq
          rw [h410] at hres
          simp [statusToPushResult] at hres
        · exact ih tok hrest h410
      | AuthFailure =>
        simp only [runPushBatch, hres] at hmem ⊢
        rcases List.mem_cons.mp hmem with heq | hrest
        · subst heq
          rw [h410] at hres
          simp [statusToPushResult] at hres
        · exact ih tok hrest h410
      | OtherError msg =>
        simp only [runPushBatch, hres] at hmem ⊢
        rcases List.mem_cons.mp hmem with heq | hrest
        · subst heq
          rw [h410] at hres
          simp [statusToPushResult] at hres
        · exact ih tok hrest h410
  · intro t rest statusOf h
    rcases h with h429 | h503
    · simp [runPushBatch, statusToPushResult, h429]
    · simp [runPushBatch, statusToPushResult, h503]
  · intro t rest statusOf hret hgone
    cases hres : statusToPushResult (statusOf t.pushToken) "" with
    | Retry => exact absurd hres hret
    | Gone => exact absurd hres hgone
    | Success => simp [runPushBatch, hres]
    | AuthFailure => simp [runPushBatch, hres]
    | OtherError msg => simp [runPushBatch, hres]
  · decide

/-- Witness for C8 on a concrete batch: token `a` gets 410 and is deleted,
token `b` gets 500 and only continues, token `c` gets 429 and stops the
batch before token `d`. -/
theorem pushBatchTaxonomyWitness :
    "a" ∈ (runPushBatch
        [⟨"a", false⟩, ⟨"b", false⟩, ⟨"c", false⟩, ⟨"d", false⟩]
        (fun s => if s = "a" then 410 else if s = "b" then 500 else 429)).deleted
    ∧ runPushBatch [⟨"c", false⟩, ⟨"d", false⟩]
        (fun s => if s = "a" then 410 else if s = "b" then 500 else 429)
      = { attempted := ["c"], deleted := [] }
    ∧ (runPushBatch [⟨"b", false⟩, ⟨"c", false⟩, ⟨"d", false⟩]
        (fun s => if s = "a" then 410 else if s = "b" then 500 else 429)).attempted
      = "b" :: (runPushBatch [⟨"c", false⟩, ⟨"d", false⟩]
        (fun s => if s = "a" then 410 else if s = "b" then 500 else 429)).attempted := by
  refine ⟨?_, ?_, ?_⟩
  · exact pushBatchTaxonomy.1
      [⟨"a", false⟩, ⟨"b", false⟩, ⟨"c", false⟩, ⟨"d", false⟩]
      (fun s => if s = "a" then 410 else if s = "b" then 500 else 429)
      "a" (by decide) (by decide)
  · exact pushBatchTaxonomy.2.1 ⟨"c", false⟩ [⟨"d", false⟩]
      (fun s => if s = "a" then 410 else if s = "b" then 500 else 429)
      (Or.inl (by decide))
  · exact (pushBatchTaxonomy.2.2.1 ⟨"b", false⟩ [⟨"c", false⟩, ⟨"d", false⟩]
      (fun s => if s = "a" then 410 else if s = "b" then 500 else 429)
      (by decide) (by decide)).1

end Claudiator
